import Mathlib

/-!
Verification of the chunked merge-request review pipeline of the
gitlab-review-agent repository: the chunker, the review reducer, the retry
executors, prompt-context preparation, comment posting and job-progress
tracking, each embedded shallowly from the JavaScript source.
-/

namespace GitLabReviewAgent

/-- A GitLab diff entry as consumed by the review pipeline
(`openaiService.js`).  Fields that JavaScript may leave `undefined`
are modelled with `Option`. -/
structure FileChange where
  new_path : Option String := none
  old_path : Option String := none
  additions : Option Nat := none
  deletions : Option Nat := none
  diff : Option String := none
  new_file : Bool := false
  deleted_file : Bool := false
  renamed_file : Bool := false
deriving Repr, DecidableEq

/-- `maxFilesPerChunk` local constant of `chunkChanges`. -/
def maxFilesPerChunk : Nat := 10

/-- `maxLinesPerChunk` local constant of `chunkChanges`. -/
def maxLinesPerChunk : Nat := 1000

/-- `const fileLines = (change.additions || 0) + (change.deletions || 0)`. -/
def fileLines (change : FileChange) : Nat :=
  change.additions.getD 0 + change.deletions.getD 0

/-- Mutable loop state of `chunkChanges`: the accumulated `chunks`,
the `currentChunk` and the running `currentLines` total. -/
structure ChunkState where
  chunks : List (List FileChange)
  currentChunk : List FileChange
  currentLines : Nat
deriving Repr

/-- One iteration of the `for (const change of changes)` loop in
`chunkChanges`: when the current chunk is full (by file count) or adding
`change` would push it over the line limit, flush it first (the flush is
guarded by the chunk being non-empty); then append `change` to the current
chunk and add its line count. -/
def chunkStep (st : ChunkState) (change : FileChange) : ChunkState :=
  if (st.currentChunk.length ≥ maxFilesPerChunk ∨
      st.currentLines + fileLines change > maxLinesPerChunk) ∧
      st.currentChunk.length > 0 then
    { chunks := st.chunks ++ [st.currentChunk],
      currentChunk := [change],
      currentLines := fileLines change }
  else
    { chunks := st.chunks,
      currentChunk := st.currentChunk ++ [change],
      currentLines := st.currentLines + fileLines change }

/-- The final `if (currentChunk.length > 0) chunks.push(currentChunk)` of
`chunkChanges`. -/
def chunkFlush (st : ChunkState) : List (List FileChange) :=
  if st.currentChunk.length > 0 then st.chunks ++ [st.currentChunk] else st.chunks

/-- `chunkChanges(changes)` from `openaiService.js`: greedy splitting of the
ordered file-change list into chunks of at most `maxFilesPerChunk` files and
(apart from single oversized files) at most `maxLinesPerChunk` changed lines,
with a final flush of the pending chunk. -/
def chunkChanges (changes : List FileChange) : List (List FileChange) :=
  chunkFlush (changes.foldl chunkStep { chunks := [], currentChunk := [], currentLines := 0 })

/-- Total changed-line count of a chunk, i.e. the value `currentLines` tracks. -/
def chunkLines (chunk : List FileChange) : Nat :=
  (chunk.map fileLines).sum

/-- Concatenation of everything held by a `ChunkState`. -/
def stateJoin (st : ChunkState) : List FileChange :=
  st.chunks.flatten ++ st.currentChunk

theorem chunkStep_join (st : ChunkState) (change : FileChange) :
    stateJoin (chunkStep st change) = stateJoin st ++ [change] := by
  unfold chunkStep stateJoin
  split
  · simp
  · simp

theorem foldl_chunkStep_join (l : List FileChange) (st : ChunkState) :
    stateJoin (l.foldl chunkStep st) = stateJoin st ++ l := by
  induction l generalizing st with
  | nil => simp
  | cons a t ih =>
    rw [List.foldl_cons, ih, chunkStep_join, List.append_assoc]
    rfl

theorem chunkFlush_join (st : ChunkState) :
    (chunkFlush st).flatten = stateJoin st := by
  unfold chunkFlush stateJoin
  split
  · simp
  · next hc =>
    have hnil : st.currentChunk = [] := List.length_eq_zero.mp (by omega)
    simp [hnil]

theorem chunkChanges_join_aux (changes : List FileChange) :
    (chunkChanges changes).flatten = changes := by
  unfold chunkChanges
  rw [chunkFlush_join, foldl_chunkStep_join]
  simp [stateJoin]

/-- The size invariant a produced chunk satisfies. -/
def goodChunk (chunk : List FileChange) : Prop :=
  chunk.length ≤ maxFilesPerChunk ∧
    (chunkLines chunk ≤ maxLinesPerChunk ∨ chunk.length = 1)

/-- Loop invariant of `chunkChanges`: all flushed chunks are good, the
current chunk respects the file bound, it respects the line bound unless it
is a lone oversized file, and `currentLines` is its exact line total. -/
def chunkInv (st : ChunkState) : Prop :=
  (∀ c ∈ st.chunks, goodChunk c) ∧
  st.currentChunk.length ≤ maxFilesPerChunk ∧
  (chunkLines st.currentChunk ≤ maxLinesPerChunk ∨ st.currentChunk.length ≤ 1) ∧
  st.currentLines = chunkLines st.currentChunk

theorem chunkLines_append (c : List FileChange) (x : FileChange) :
    chunkLines (c ++ [x]) = chunkLines c + fileLines x := by
  simp [chunkLines]

theorem chunkStep_inv (st : ChunkState) (change : FileChange) (h : chunkInv st) :
    chunkInv (chunkStep st change) := by
  obtain ⟨hchunks, hlen, hdisj, hlines⟩ := h
  unfold chunkStep
  split
  · next hcond =>
    refine ⟨?_, ?_, ?_, ?_⟩
    · intro c hc
      rcases List.mem_append.mp hc with hc | hc
      · exact hchunks c hc
      · rw [List.mem_singleton.mp hc]
        refine ⟨hlen, ?_⟩
        rcases hdisj with hle | hone
        · exact Or.inl hle
        · exact Or.inr (by omega)
    · simp [maxFilesPerChunk]
    · right
      simp
    · simp [chunkLines]
  · next hcond =>
    refine ⟨hchunks, ?_, ?_, ?_⟩
    · by_cases hz : st.currentChunk.length = 0
      · simp [hz, maxFilesPerChunk]
      · have hnotfull : ¬ (st.currentChunk.length ≥ maxFilesPerChunk ∨
            st.currentLines + fileLines change > maxLinesPerChunk) := by
          intro hab
          exact hcond ⟨hab, by omega⟩
        push_neg at hnotfull
        simp only [List.length_append, List.length_cons, List.length_nil]
        omega
    · by_cases hz : st.currentChunk.length = 0
      · have hnil : st.currentChunk = [] := List.length_eq_zero.mp hz
        right
        simp [hnil]
      · have hnotfull : ¬ (st.currentChunk.length ≥ maxFilesPerChunk ∨
            st.currentLines + fileLines change > maxLinesPerChunk) := by
          intro hab
          exact hcond ⟨hab, by omega⟩
        push_neg at hnotfull
        left
        rw [chunkLines_append, ← hlines]
        omega
    · rw [chunkLines_append, hlines]

theorem foldl_chunkStep_inv (l : List FileChange) (st : ChunkState) (h : chunkInv st) :
    chunkInv (l.foldl chunkStep st) := by
  induction l generalizing st with
  | nil => exact h
  | cons a t ih => exact ih _ (chunkStep_inv st a h)

theorem chunkChanges_good (changes : List FileChange) (chunk : List FileChange)
    (hmem : chunk ∈ chunkChanges changes) : goodChunk chunk := by
  have hinv : chunkInv (changes.foldl chunkStep
      { chunks := [], currentChunk := [], currentLines := 0 }) :=
    foldl_chunkStep_inv changes _ (by refine ⟨?_, ?_, ?_, ?_⟩ <;> simp [chunkLines, maxFilesPerChunk])
  obtain ⟨hchunks, hlen, hdisj, _⟩ := hinv
  unfold chunkChanges chunkFlush at hmem
  split at hmem
  · next hpos =>
    rcases List.mem_append.mp hmem with hc | hc
    · exact hchunks chunk hc
    · rw [List.mem_singleton.mp hc]
      refine ⟨hlen, ?_⟩
      rcases hdisj with hle | hone
      · exact Or.inl hle
      · exact Or.inr (by omega)
  · exact hchunks chunk hmem

/-- C1. For every list of file changes, concatenating the chunks returned by
`chunkChanges` in order yields exactly the original input list: no file is
lost, duplicated, or reordered.  `chunkChanges` is a pure function of its
input, so the same input always produces the same chunk boundaries. -/
theorem chunkChanges_join_reconstructs (changes : List FileChange) :
    (chunkChanges changes).flatten = changes :=
  chunkChanges_join_aux changes

/-- C2. Every chunk produced by `chunkChanges` holds at most
`maxFilesPerChunk` files and either its total changed-line count is at most
`maxLinesPerChunk` or it holds exactly one file; moreover no file is dropped,
since the chunks concatenate back to the input. -/
theorem chunkChanges_size_bounds (changes : List FileChange) :
    (∀ chunk ∈ chunkChanges changes,
      chunk.length ≤ maxFilesPerChunk ∧
        (chunkLines chunk ≤ maxLinesPerChunk ∨ chunk.length = 1)) ∧
    (chunkChanges changes).flatten = changes :=
  ⟨fun chunk hmem => chunkChanges_good changes chunk hmem, chunkChanges_join_aux changes⟩

/-- Witness for C2: on the two-file scenario from the spec (500 and 600
changed lines), the first produced chunk is the singleton of the first file
and the theorem's bounds hold for it. -/
theorem chunkChanges_size_bounds_witness :
    ([{ additions := some 500, deletions := some 0 }] ∈
      chunkChanges [{ additions := some 500, deletions := some 0 },
        { additions := some 600, deletions := some 0 }]) ∧
    (([{ additions := some 500, deletions := some 0 }] : List FileChange).length ≤ maxFilesPerChunk ∧
      (chunkLines [{ additions := some 500, deletions := some 0 }] ≤ maxLinesPerChunk ∨
        ([{ additions := some 500, deletions := some 0 }] : List FileChange).length = 1)) :=
  ⟨by decide,
    (chunkChanges_size_bounds [{ additions := some 500, deletions := some 0 },
      { additions := some 600, deletions := some 0 }]).1 _ (by decide)⟩

/-- One issue inside a file review, as produced by the model JSON
(`codeReviewSystemPrompt.js` response format). -/
structure Issue where
  line : Option Nat := none
  type : String := ""
  severity : String := ""
  message : String := ""
  suggestion : Option String := none
deriving Repr, DecidableEq

/-- One per-file review inside a chunk review result. -/
structure FileReview where
  filename : String := ""
  issues : Option (List Issue) := none
  positives : Option (List String) := none
deriving Repr, DecidableEq

/-- A per-chunk review result: the model's parsed JSON spread together with
the `tokensUsed` and `identifier` fields added by `callOpenAI`.  Every field
may be absent in the JavaScript object, hence `Option`. -/
structure ChunkReviewResult where
  summary : Option String := none
  fileReviews : Option (List FileReview) := none
  overallRecommendation : Option String := none
  keyInsights : Option (List String) := none
  tokensUsed : Option Nat := none
  identifier : Option String := none
deriving Repr, DecidableEq

/-- The `issueCounts` object built by `combineReviews`. -/
structure IssueCounts where
  high : Nat
  medium : Nat
  low : Nat
deriving Repr, DecidableEq

/-- The object returned by `combineReviews` on the multi-chunk path. -/
structure CombinedReviewResult where
  summary : String
  fileReviews : List FileReview
  overallRecommendation : String
  keyInsights : List String
  issueCounts : IssueCounts
  totalTokensUsed : Nat
deriving Repr, DecidableEq

/-- `combineReviews(chunkReviews)` from `openaiService.js`.  A one-element
input is returned unchanged (left injection); any other input takes the
summary path (right injection) that flattens file reviews, counts issues by
severity, derives the overall recommendation and sums token usage.  (The
source's unused `context` parameter is dropped.) -/
def combineReviews (chunkReviews : List ChunkReviewResult) :
    ChunkReviewResult ⊕ CombinedReviewResult :=
  match chunkReviews with
  | [review] => Sum.inl review
  | _ =>
    let allFileReviews := chunkReviews.flatMap fun review => review.fileReviews.getD []
    let allIssues := allFileReviews.flatMap fun file => file.issues.getD []
    let issueCounts : IssueCounts :=
      { high := (allIssues.filter fun issue => issue.severity = "high").length
        medium := (allIssues.filter fun issue => issue.severity = "medium").length
        low := (allIssues.filter fun issue => issue.severity = "low").length }
    let overallRecommendation :=
      if issueCounts.high > 0 then "request-changes"
      else if issueCounts.medium > 2 ∨ issueCounts.low > 5 then "comment"
      else "approve"
    let combinedSummary :=
      "Reviewed " ++ toString allFileReviews.length ++ " files with " ++
        toString allIssues.length ++ " total issues found: " ++
        toString issueCounts.high ++ " high, " ++ toString issueCounts.medium ++
        " medium, " ++ toString issueCounts.low ++ " low severity issues."
    Sum.inr
      { summary := combinedSummary
        fileReviews := allFileReviews
        overallRecommendation := overallRecommendation
        keyInsights := chunkReviews.flatMap fun review => review.keyInsights.getD []
        issueCounts := issueCounts
        totalTokensUsed := chunkReviews.foldl (fun sum review => sum + review.tokensUsed.getD 0) 0 }

/-- All issues of a list of chunk reviews, flattened across all file
reviews, exactly as `combineReviews` flattens them. -/
def allIssuesOf (chunkReviews : List ChunkReviewResult) : List Issue :=
  (chunkReviews.flatMap fun review => review.fileReviews.getD []).flatMap fun file =>
    file.issues.getD []

/-- C3. For two or more chunk review results, `combineReviews` takes the
summary path and computes the overall recommendation solely from the severity
counts of all issues flattened across all file reviews: `request-changes`
when the high count is positive, else `comment` when the medium count exceeds
2 or the low count exceeds 5, else `approve`. -/
theorem combineReviews_recommendation_from_counts (chunkReviews : List ChunkReviewResult)
    (h : 2 ≤ chunkReviews.length) :
    ∃ combined, combineReviews chunkReviews = Sum.inr combined ∧
      combined.overallRecommendation =
        (if 0 < ((allIssuesOf chunkReviews).filter fun issue => issue.severity = "high").length
         then "request-changes"
         else if 2 < ((allIssuesOf chunkReviews).filter fun issue => issue.severity = "medium").length ∨
             5 < ((allIssuesOf chunkReviews).filter fun issue => issue.severity = "low").length
         then "comment"
         else "approve") := by
  match chunkReviews, h with
  | r1 :: r2 :: rest, _ =>
    refine ⟨_, rfl, ?_⟩
    rfl

/-- A concrete pair of chunk results (three medium-severity findings in
total) used to instantiate the reducer theorems. -/
def mediumPairExample : List ChunkReviewResult :=
  [{ fileReviews :=
       some [{ filename := "a.js",
               issues := some [{ severity := "medium" }, { severity := "medium" }] }] },
   { fileReviews :=
       some [{ filename := "b.js",
               issues := some [{ severity := "medium" }] }] }]

/-- Witness for C3: combining the two concrete chunk results of
`mediumPairExample` (0 high, 3 medium, 0 low) yields the recommendation
`comment`, computed from the flattened severity counts. -/
theorem combineReviews_recommendation_witness :
    2 ≤ mediumPairExample.length ∧
    ∃ combined, combineReviews mediumPairExample = Sum.inr combined ∧
      combined.overallRecommendation =
        (if 0 < ((allIssuesOf mediumPairExample).filter fun issue =>
              issue.severity = "high").length
         then "request-changes"
         else if 2 < ((allIssuesOf mediumPairExample).filter fun issue =>
               issue.severity = "medium").length ∨
             5 < ((allIssuesOf mediumPairExample).filter fun issue =>
               issue.severity = "low").length
         then "comment"
         else "approve") :=
  ⟨by decide, combineReviews_recommendation_from_counts mediumPairExample (by decide)⟩

/-- C4. `combineReviews` applied to a one-element list returns that element
itself, unchanged and still in per-chunk shape (the left injection carries a
`ChunkReviewResult`, which has no `issueCounts` or `totalTokensUsed` field). -/
theorem combineReviews_singleton_identity (review : ChunkReviewResult) :
    combineReviews [review] = Sum.inl review :=
  rfl

/-- C9. Combining an empty list of chunk results does not fail: it takes the
summary path and returns empty file reviews and insights, zero issue counts,
recommendation `approve`, zero total tokens, and a summary reporting 0 files
and 0 issues. -/
theorem combineReviews_empty_eval :
    combineReviews [] = Sum.inr
      { summary := "Reviewed 0 files with 0 total issues found: " ++
          "0 high, 0 medium, 0 low severity issues."
        fileReviews := []
        overallRecommendation := "approve"
        keyInsights := []
        issueCounts := { high := 0, medium := 0, low := 0 }
        totalTokensUsed := 0 } := by
  rfl

/-! ## Retry with exponential backoff (`src/utils/helpers.js`)

`retryWithBackoff(fn, maxAttempts, baseDelay)` is embedded with the fallible
operation as a function from the attempt number (starting at 1) to an
`Except` outcome.  The embedding returns the final outcome, the number of
invocations performed, and the ordered list of delays awaited.  When the
loop body never runs (`maxAttempts = 0`) the JavaScript function throws the
still-undefined `lastError`; that is the `Except.error none` outcome. -/

/-- The `for (let attempt = 1; attempt <= maxAttempts; attempt++)` loop of
`retryWithBackoff`, with `remaining = maxAttempts - attempt + 1` iterations
left.  On failure of a non-final attempt the delay
`baseDelay * 2 ^ (attempt - 1)` is awaited before retrying; the final
attempt's error is rethrown unchanged. -/
def retryLoop (fn : Nat → Except ε α) (baseDelay : Nat) :
    Nat → Nat → Except (Option ε) α × Nat × List Nat
  | _, 0 => (Except.error none, 0, [])
  | attempt, remaining + 1 =>
    match fn attempt with
    | Except.ok value => (Except.ok value, 1, [])
    | Except.error e =>
      if remaining = 0 then
        (Except.error (some e), 1, [])
      else
        let rest := retryLoop fn baseDelay (attempt + 1) remaining
        (rest.1, rest.2.1 + 1, baseDelay * 2 ^ (attempt - 1) :: rest.2.2)

/-- `retryWithBackoff(fn, maxAttempts, baseDelay)` from `helpers.js`. -/
def retryWithBackoff (fn : Nat → Except ε α) (maxAttempts baseDelay : Nat) :
    Except (Option ε) α × Nat × List Nat :=
  retryLoop fn baseDelay 1 maxAttempts

theorem retryLoop_zero (fn : Nat → Except ε α) (baseDelay attempt : Nat) :
    retryLoop fn baseDelay attempt 0 = (Except.error none, 0, []) :=
  rfl

theorem retryLoop_succ (fn : Nat → Except ε α) (baseDelay attempt remaining : Nat) :
    retryLoop fn baseDelay attempt (remaining + 1) =
      match fn attempt with
      | Except.ok value => (Except.ok value, 1, [])
      | Except.error e =>
        if remaining = 0 then
          (Except.error (some e), 1, [])
        else
          let rest := retryLoop fn baseDelay (attempt + 1) remaining
          (rest.1, rest.2.1 + 1, baseDelay * 2 ^ (attempt - 1) :: rest.2.2) :=
  rfl

theorem retryLoop_attempts_le (fn : Nat → Except ε α) (baseDelay : Nat) :
    ∀ remaining attempt, (retryLoop fn baseDelay attempt remaining).2.1 ≤ remaining := by
  intro remaining
  induction remaining with
  | zero => intro attempt; simp [retryLoop_zero]
  | succ n ih =>
    intro attempt
    rw [retryLoop_succ]
    cases hf : fn attempt with
    | ok value => simp
    | error e =>
      by_cases hn : n = 0
      · simp [hn]
      · simp only [hn, if_false]
        have := ih (attempt + 1)
        omega

theorem retryLoop_delay_count (fn : Nat → Except ε α) (baseDelay : Nat) :
    ∀ remaining attempt, 1 ≤ remaining →
      (retryLoop fn baseDelay attempt remaining).2.2.length + 1 =
        (retryLoop fn baseDelay attempt remaining).2.1 := by
  intro remaining
  induction remaining with
  | zero => intro attempt h; omega
  | succ n ih =>
    intro attempt _
    rw [retryLoop_succ]
    cases hf : fn attempt with
    | ok value => simp
    | error e =>
      by_cases hn : n = 0
      · simp [hn]
      · simp only [hn, if_false, List.length_cons]
        have := ih (attempt + 1) (by omega)
        omega

theorem retryLoop_delays (fn : Nat → Except ε α) (baseDelay : Nat) :
    ∀ remaining attempt, 1 ≤ attempt →
      ∀ i, i < (retryLoop fn baseDelay attempt remaining).2.2.length →
        (retryLoop fn baseDelay attempt remaining).2.2[i]? =
          some (baseDelay * 2 ^ (attempt - 1 + i)) := by
  intro remaining
  induction remaining with
  | zero =>
    intro attempt _ i hi
    simp [retryLoop_zero] at hi
  | succ n ih =>
    intro attempt hatt i hi
    rw [retryLoop_succ] at hi ⊢
    cases hf : fn attempt with
    | ok value => simp [hf] at hi
    | error e =>
      by_cases hn : n = 0
      · simp [hf, hn] at hi
      · simp only [hf, hn, if_false] at hi ⊢
        match i with
        | 0 => simp
        | j + 1 =>
          simp only [List.getElem?_cons_succ]
          have hj : j < (retryLoop fn baseDelay (attempt + 1) n).2.2.length := by
            simpa using hi
          have hrec := ih (attempt + 1) (by omega) j hj
          have he : attempt + 1 - 1 + j = attempt - 1 + (j + 1) := by omega
          rw [hrec, he]

theorem retryLoop_all_fail (fn : Nat → Except ε α) (baseDelay : Nat) :
    ∀ remaining attempt e, 1 ≤ remaining →
      (∀ k, attempt ≤ k → k < attempt + remaining → (fn k).isOk = false) →
      fn (attempt + remaining - 1) = Except.error e →
      (retryLoop fn baseDelay attempt remaining).1 = Except.error (some e) ∧
      (retryLoop fn baseDelay attempt remaining).2.1 = remaining := by
  intro remaining
  induction remaining with
  | zero => intro attempt e h; omega
  | succ n ih =>
    intro attempt e _ hfail hlast
    rw [retryLoop_succ]
    by_cases hn : n = 0
    · subst hn
      have : fn attempt = Except.error e := by simpa using hlast
      simp [this]
    · have hcur : (fn attempt).isOk = false := hfail attempt (le_refl _) (by omega)
      cases hf : fn attempt with
      | ok value => rw [hf] at hcur; simp [Except.isOk, Except.toBool] at hcur
      | error e' =>
        simp only [hn, if_false]
        have hlast' : fn (attempt + 1 + n - 1) = Except.error e := by
          have harith : attempt + 1 + n - 1 = attempt + (n + 1) - 1 := by omega
          rw [harith]
          exact hlast
        have hrec := ih (attempt + 1) e (by omega)
          (fun k hk1 hk2 => hfail k (by omega) (by omega)) hlast'
        have h2 := hrec.2
        refine ⟨hrec.1, ?_⟩
        show (retryLoop fn baseDelay (attempt + 1) n).2.1 + 1 = n + 1
        omega

theorem retryLoop_success (fn : Nat → Except ε α) (baseDelay : Nat) :
    ∀ remaining attempt k value, attempt ≤ k → k < attempt + remaining →
      (∀ j, attempt ≤ j → j < k → (fn j).isOk = false) →
      fn k = Except.ok value →
      (retryLoop fn baseDelay attempt remaining).1 = Except.ok value ∧
      (retryLoop fn baseDelay attempt remaining).2.1 = k - attempt + 1 := by
  intro remaining
  induction remaining with
  | zero => intro attempt k value h1 h2; omega
  | succ n ih =>
    intro attempt k value hk1 hk2 hbefore hok
    rw [retryLoop_succ]
    by_cases hka : k = attempt
    · subst hka
      simp [hok]
    · have hcur : (fn attempt).isOk = false := hbefore attempt (le_refl _) (by omega)
      cases hf : fn attempt with
      | ok value' => rw [hf] at hcur; simp [Except.isOk, Except.toBool] at hcur
      | error e =>
        have hn : n ≠ 0 := by omega
        simp only [hn, if_false]
        have hrec := ih (attempt + 1) k value (by omega) (by omega)
          (fun j hj1 hj2 => hbefore j (by omega) hj2) hok
        have h2 := hrec.2
        refine ⟨hrec.1, ?_⟩
        show (retryLoop fn baseDelay (attempt + 1) n).2.1 + 1 = k - attempt + 1
        omega

/-- C5. For every operation and every `maxAttempts ≥ 1`, `retryWithBackoff`
invokes the operation at most `maxAttempts` times; the `i`-th delay awaited
(the one before retry attempt `i + 2`) is `baseDelay * 2 ^ i`, i.e. before
retry attempt `n + 1` it waits `baseDelay * 2 ^ (n - 1)`; if every attempt
fails, the last attempt's error is rethrown unchanged (not wrapped) after
exactly `maxAttempts` invocations; and if an attempt succeeds after only
failures, its value is returned with exactly one fewer delay performed than
invocations made. -/
theorem retryWithBackoff_spec (fn : Nat → Except ε α) (maxAttempts baseDelay : Nat)
    (hmax : 1 ≤ maxAttempts) :
    (retryWithBackoff fn maxAttempts baseDelay).2.1 ≤ maxAttempts ∧
    (∀ i, i < (retryWithBackoff fn maxAttempts baseDelay).2.2.length →
      (retryWithBackoff fn maxAttempts baseDelay).2.2[i]? = some (baseDelay * 2 ^ i)) ∧
    (∀ e, (∀ k, 1 ≤ k → k ≤ maxAttempts → (fn k).isOk = false) →
      fn maxAttempts = Except.error e →
      (retryWithBackoff fn maxAttempts baseDelay).1 = Except.error (some e) ∧
      (retryWithBackoff fn maxAttempts baseDelay).2.1 = maxAttempts) ∧
    (∀ k value, 1 ≤ k → k ≤ maxAttempts →
      (∀ j, 1 ≤ j → j < k → (fn j).isOk = false) →
      fn k = Except.ok value →
      (retryWithBackoff fn maxAttempts baseDelay).1 = Except.ok value ∧
      (retryWithBackoff fn maxAttempts baseDelay).2.2.length + 1 =
        (retryWithBackoff fn maxAttempts baseDelay).2.1) := by
  unfold retryWithBackoff
  refine ⟨retryLoop_attempts_le fn baseDelay maxAttempts 1, ?_, ?_, ?_⟩
  · intro i hi
    simpa using retryLoop_delays fn baseDelay maxAttempts 1 (le_refl 1) i hi
  · intro e hfail hlast
    have := retryLoop_all_fail fn baseDelay maxAttempts 1 e hmax
      (fun k hk1 hk2 => hfail k hk1 (by omega))
      (by simpa [Nat.add_comm] using hlast)
    exact this
  · intro k value hk1 hk2 hbefore hok
    have hs := retryLoop_success fn baseDelay maxAttempts 1 k value hk1 (by omega) hbefore hok
    refine ⟨hs.1, ?_⟩
    have hpos : 1 ≤ (retryLoop fn baseDelay 1 maxAttempts).2.1 := by
      rw [hs.2]; omega
    exact retryLoop_delay_count fn baseDelay maxAttempts 1 hmax

/-- Witness for C5: an operation that fails on attempts 1 and 2 and succeeds
on attempt 3, run with `maxAttempts = 3` and `baseDelay = 100`, returns the
success value after 3 invocations with delays `[100, 200]`. -/
theorem retryWithBackoff_spec_witness :
    (retryWithBackoff
        (fun attempt => if attempt < 3 then Except.error "boom" else Except.ok 42)
        3 100).1 = Except.ok 42 ∧
    (retryWithBackoff
        (fun attempt => if attempt < 3 then Except.error "boom" else Except.ok 42)
        3 100).2.2.length + 1 =
      (retryWithBackoff
        (fun attempt => if attempt < 3 then Except.error "boom" else Except.ok 42)
        3 100).2.1 :=
  (retryWithBackoff_spec
      (fun attempt => if attempt < 3 then Except.error "boom" else Except.ok 42)
      3 100 (by decide)).2.2.2 3 42 (by decide) (by decide)
    (fun j hj1 hj2 => by
      interval_cases j <;> simp [Except.isOk, Except.toBool])
    (by simp)

/-! ## GitLab API retry executor (`src/services/gitlabService.js`)

`executeWithRetry(apiCall, operation)` is embedded with `apiCall` as a
function from the attempt number (starting at 1) to one of: a successful
response, an HTTP error response (`error.response` present, carrying
`status`, `data.message` and the `retry-after` header), or a network error
(`error.response` absent).  The embedding returns the final outcome together
with the ordered list of delays awaited in milliseconds; note that the
source passes `retryAfter * 1000` to `delay`, where `retryAfter` defaults to
`this.retryDelay` (1000 ms) when the `retry-after` header is absent. -/

/-- The parts of an axios `error.response` read by `executeWithRetry`. -/
structure ErrorResponse where
  status : Nat
  message : Option String := none
  retryAfter : Option Nat := none
deriving Repr, DecidableEq

/-- The outcome of one `apiCall()` attempt, as discriminated by
`executeWithRetry`: success carrying `response.data`, an HTTP error
response, or a response-less failure carrying `error.message`. -/
inductive CallResult (α : Type) where
  | ok (data : α)
  | respError (response : ErrorResponse)
  | netError (message : String)
deriving Repr, DecidableEq

/-- Errors thrown by `executeWithRetry`: `RateLimitError`, or
`GitLabAPIError` built either from a response payload or from a bare
`error.message`. -/
inductive GitLabError where
  | rateLimited (message : String)
  | apiErrorResp (message : String) (status : Nat) (data : ErrorResponse)
  | apiErrorNet (message : String) (status : Nat) (errMessage : String)
deriving Repr, DecidableEq

/-- The `for (let attempt = 1; attempt <= this.retryAttempts; attempt++)`
loop of `executeWithRetry`, with `remaining` iterations left.  A 429 status
waits `(retry-after || retryDelay) * 1000` and retries, throwing
`RateLimitError` on the final attempt; a 5xx status on a non-final attempt
waits `retryDelay * attempt` and retries; any other response status throws
`GitLabAPIError(data.message || default, status, data)`; a response-less
failure waits `retryDelay * attempt` and retries, throwing
`GitLabAPIError('GitLab API call failed', 500, error.message)` on the final
attempt.  Falling off the end of the loop (never with `retryAttempts ≥ 1`)
returns `undefined`, modelled as `Except.error none`. -/
def executeLoop (apiCall : Nat → CallResult α) (retryAttempts retryDelay : Nat) :
    Nat → Nat → Except (Option GitLabError) α × List Nat
  | _, 0 => (Except.error none, [])
  | attempt, remaining + 1 =>
    match apiCall attempt with
    | CallResult.ok data => (Except.ok data, [])
    | CallResult.respError response =>
      if response.status = 429 then
        if attempt = retryAttempts then
          (Except.error (some (GitLabError.rateLimited "GitLab API rate limit exceeded")), [])
        else
          let rest := executeLoop apiCall retryAttempts retryDelay (attempt + 1) remaining
          (rest.1, response.retryAfter.getD retryDelay * 1000 :: rest.2)
      else if 500 ≤ response.status ∧ attempt < retryAttempts then
        let rest := executeLoop apiCall retryAttempts retryDelay (attempt + 1) remaining
        (rest.1, retryDelay * attempt :: rest.2)
      else
        (Except.error (some (GitLabError.apiErrorResp
          (response.message.getD ("GitLab API error: " ++ toString response.status))
          response.status response)), [])
    | CallResult.netError message =>
      if attempt = retryAttempts then
        (Except.error (some (GitLabError.apiErrorNet "GitLab API call failed" 500 message)), [])
      else
        let rest := executeLoop apiCall retryAttempts retryDelay (attempt + 1) remaining
        (rest.1, retryDelay * attempt :: rest.2)

/-- `executeWithRetry(apiCall, operation)` from `gitlabService.js`, with the
instance fields `this.retryAttempts` and `this.retryDelay` as parameters. -/
def executeWithRetry (apiCall : Nat → CallResult α) (retryAttempts retryDelay : Nat) :
    Except (Option GitLabError) α × List Nat :=
  executeLoop apiCall retryAttempts retryDelay 1 retryAttempts

/-- `this.retryAttempts` set in the `GitLabService` constructor. -/
def gitlabRetryAttempts : Nat := 3

/-- `this.retryDelay` set in the `GitLabService` constructor (1 second). -/
def gitlabRetryDelay : Nat := 1000

/-- C6 (code evaluated at the failing input).  When every attempt fails with
a 429 response carrying no `retry-after` header, `executeWithRetry` with the
constructor's `retryAttempts = 3` and `retryDelay = 1000` does raise the
distinct `RateLimitError` after the last attempt and does consume one
attempt per retry — but each of the two waits is
`retryDelay * 1000 = 1 000 000` ms, not the `baseDelay` of 1000 ms that the
claim (and the source's own `retrying after ${retryAfter}ms` log line)
describes. -/
theorem executeWithRetry_rate_limit_fallback_delay :
    executeWithRetry (fun _ => (CallResult.respError { status := 429 } : CallResult Unit))
        gitlabRetryAttempts gitlabRetryDelay =
      (Except.error (some (GitLabError.rateLimited "GitLab API rate limit exceeded")),
        [1000000, 1000000]) ∧
    (executeWithRetry (fun _ => (CallResult.respError { status := 429 } : CallResult Unit))
        gitlabRetryAttempts gitlabRetryDelay).2 ≠ [gitlabRetryDelay, gitlabRetryDelay] := by
  constructor
  · rfl
  · decide

/-! ## Prompt construction (`src/services/openaiService.js`,
`src/prompts/codeReviewSystemPrompt.js`) -/

/-- The `CODE_REVIEW_SYSTEM_PROMPT` template literal from
`codeReviewSystemPrompt.js`, line by line. -/
def CODE_REVIEW_SYSTEM_PROMPT : String := String.intercalate "\n" [
  "You are an expert senior software engineer and code reviewer with extensive experience across multiple programming languages, frameworks, and best practices. You are performing a thorough code review for a GitLab merge request.",
  "",
  "## Your Role & Expertise:",
  "- 10+ years of software development experience",
  "- Expert in security, performance, maintainability, and code quality",
  "- Familiar with modern development practices, design patterns, and architectural principles",
  "- Experienced with testing strategies, CI/CD, and production systems",
  "",
  "## Review Guidelines:",
  "",
  "### 🔍 What to Look For:",
  "1. **Security Issues** (HIGH PRIORITY)",
  "   - SQL injection, XSS, CSRF vulnerabilities",
  "   - Authentication/authorization flaws",
  "   - Sensitive data exposure",
  "   - Input validation issues",
  "   - Insecure dependencies or configurations",
  "",
  "2. **Correctness & Logic**",
  "   - Potential bugs and edge cases",
  "   - Race conditions and concurrency issues",
  "   - Error handling and exception management",
  "   - Null pointer/undefined access",
  "   - Off-by-one errors and boundary conditions",
  "",
  "3. **Performance**",
  "   - Inefficient algorithms or data structures",
  "   - N+1 queries and database performance",
  "   - Memory leaks and resource management",
  "   - Unnecessary computations or loops",
  "   - Caching opportunities",
  "",
  "4. **Code Quality & Maintainability**",
  "   - Code duplication and DRY violations",
  "   - Single Responsibility Principle violations",
  "   - Complex methods that need refactoring",
  "   - Inconsistent naming conventions",
  "   - Missing or poor documentation",
  "",
  "5. **Best Practices**",
  "   - Language-specific idioms and conventions",
  "   - Framework best practices",
  "   - Design pattern applications",
  "   - SOLID principles adherence",
  "   - Clean code principles",
  "",
  "6. **Testing**",
  "   - Missing test coverage for critical paths",
  "   - Test quality and effectiveness",
  "   - Edge case coverage",
  "   - Integration test needs",
  "",
  "### 📝 How to Provide Feedback:",
  "- Be specific and actionable",
  "- Reference exact line numbers when possible",
  "- Provide code examples for suggestions",
  "- Explain the \"why\" behind your recommendations",
  "- Balance criticism with recognition of good practices",
  "- Prioritize issues by severity and impact",
  "",
  "### 🎯 Response Format:",
  "Provide your analysis as valid JSON with this exact structure:",
  "\x7b",
  "  \"summary\": \"Brief overall assessment of the changes (2-3 sentences)\",",
  "  \"fileReviews\": [",
  "    \x7b",
  "      \"filename\": \"exact/path/to/file\",",
  "      \"issues\": [",
  "        \x7b",
  "          \"line\": 42,",
  "          \"type\": \"security|bug|performance|style|best-practice|testing\",",
  "          \"severity\": \"high|medium|low\",",
  "          \"message\": \"Clear description of the issue\",",
  "          \"suggestion\": \"Specific recommendation on how to fix it\"",
  "        \x7d",
  "      ],",
  "      \"positives\": [\"Things done well in this file\"]",
  "    \x7d",
  "  ],",
  "  \"overallRecommendation\": \"approve|request-changes|comment\",",
  "  \"keyInsights\": [",
  "    \"Important observations about the overall change\"",
  "  ]",
  "\x7d",
  "",
  "### 📊 Severity Guidelines:",
  "- **HIGH**: Security vulnerabilities, critical bugs, performance killers",
  "- **MEDIUM**: Logic errors, maintainability issues, moderate performance problems",
  "- **LOW**: Style issues, minor optimizations, documentation improvements",
  "",
  "### 🌟 Recognition:",
  "Always acknowledge good practices, clever solutions, and improvements made in the code."]

/-- The `author` object of the merge-request payload (`author?.name`). -/
structure Author where
  name : String
deriving Repr, DecidableEq

/-- The merge-request fields read by `prepareMRContext`. -/
structure MRData where
  title : String := ""
  description : Option String := none
  source_branch : String := ""
  target_branch : String := ""
  author : Option Author := none
deriving Repr, DecidableEq

/-- A commit as read by `prepareMRContext` (`commit.message`). -/
structure Commit where
  message : String
deriving Repr, DecidableEq

/-- The context object built by `prepareMRContext`. -/
structure MRContext where
  title : String
  description : Option String
  sourceBranch : String
  targetBranch : String
  author : Option String
  changedFiles : Nat
  totalAdditions : Nat
  totalDeletions : Nat
  commitCount : Nat
  recentCommitMessages : List String
deriving Repr, DecidableEq

/-- `prepareMRContext(mrData, changes, commits)` from `openaiService.js`:
in particular `recentCommitMessages` is `commits.slice(0, 5).map(m => m.message)`. -/
def prepareMRContext (mrData : MRData) (changes : List FileChange)
    (commits : List Commit) : MRContext :=
  { title := mrData.title
    description := mrData.description
    sourceBranch := mrData.source_branch
    targetBranch := mrData.target_branch
    author := mrData.author.map Author.name
    changedFiles := changes.length
    totalAdditions := changes.foldl (fun sum file => sum + file.additions.getD 0) 0
    totalDeletions := changes.foldl (fun sum file => sum + file.deletions.getD 0) 0
    commitCount := commits.length
    recentCommitMessages := (commits.take 5).map Commit.message }

/-- JavaScript template interpolation of a possibly-`undefined` string. -/
def jsShow : Option String → String
  | some s => s
  | none => "undefined"

/-- JavaScript `a || b` for an optional string against a string default
(the empty string is falsy). -/
def jsOrString (a : Option String) (b : String) : String :=
  match a with
  | some s => if s = "" then b else s
  | none => b

/-- JavaScript `a || b` for two optional strings
(`change.new_path || change.old_path`). -/
def jsOrOption (a b : Option String) : Option String :=
  match a with
  | some s => if s = "" then b else some s
  | none => b

/-- The `context.recentCommitMessages.slice(0, 3).map(msg => '- ' + msg)
.join('\n')` interpolation inside `buildReviewPrompt`'s context block. -/
def renderRecentCommitMessages (msgs : List String) : String :=
  String.intercalate "\n" ((msgs.take 3).map fun msg => "- " ++ msg)

/-- `buildReviewPrompt(context, changes, chunkIndex, totalChunks)` from
`openaiService.js`: the system prompt, the merge-request context block
(including the `slice(0, 3)` commit-message excerpt) and the per-file diff
text with new/deleted/renamed markers. -/
def buildReviewPrompt (context : MRContext) (changes : List FileChange)
    (chunkIndex totalChunks : Nat) : String :=
  CODE_REVIEW_SYSTEM_PROMPT ++ "\n\n" ++
    ("\nMerge Request Context:\n- Title: " ++ context.title ++
      "\n- Description: " ++ jsOrString context.description "No description" ++
      "\n- Branch: " ++ context.sourceBranch ++ " → " ++ context.targetBranch ++
      "\n- Author: " ++ jsShow context.author ++
      "\n- Files changed: " ++ toString context.changedFiles ++
      "\n- Lines: +" ++ toString context.totalAdditions ++ " -" ++
        toString context.totalDeletions ++ "\n" ++
      (if totalChunks > 1 then
        "- Reviewing chunk " ++ toString (chunkIndex + 1) ++ " of " ++ toString totalChunks
       else "") ++
      "\n\nRecent commit messages:\n" ++
      renderRecentCommitMessages context.recentCommitMessages ++ "\n") ++
    "\n\nChanges to review:\n" ++
    String.intercalate "\n" (changes.map fun change =>
      "\n--- File: " ++ jsShow (jsOrOption change.new_path change.old_path) ++ " ---\n" ++
        (if change.new_file then "[NEW FILE]" else "") ++
        (if change.deleted_file then "[DELETED FILE]" else "") ++
        (if change.renamed_file then "[RENAMED FILE]" else "") ++
        "\n" ++ jsOrString change.diff "" ++ "\n")

/-- Merge-request data for the C7 counterexample. -/
def c7MR : MRData :=
  { title := "T", description := some "D", source_branch := "s",
    target_branch := "t", author := some { name := "A" } }

/-- Five commit messages for the C7 counterexample. -/
def c7CommitsA : List Commit := [⟨"m1"⟩, ⟨"m2"⟩, ⟨"m3"⟩, ⟨"m4"⟩, ⟨"m5"⟩]

/-- The same five commits with the fourth and fifth messages changed. -/
def c7CommitsB : List Commit := [⟨"m1"⟩, ⟨"m2"⟩, ⟨"m3"⟩, ⟨"x4"⟩, ⟨"x5"⟩]

/-- C7 counterexample.  Two commit-message lists of length 5 that differ in
their fourth and fifth messages produce the identical chunk prompt, so the
prompt sent with each chunk request does not use the first 5 commit
messages: messages 4 and 5 never reach it (only the first 3 do, via
`slice(0, 3)` in `buildReviewPrompt`). -/
theorem buildReviewPrompt_ignores_commits_4_5 :
    c7CommitsA ≠ c7CommitsB ∧
    buildReviewPrompt (prepareMRContext c7MR [] c7CommitsA) [] 0 1 =
      buildReviewPrompt (prepareMRContext c7MR [] c7CommitsB) [] 0 1 := by
  refine ⟨by decide, ?_⟩
  rfl

/-- C7 as amended.  `prepareMRContext` keeps exactly the first 5 commit
messages in the context, but the prompt built for each chunk request renders
only the first 3 of them: the prompt is unchanged when the commit list is
truncated to its first 3 entries. -/
theorem buildReviewPrompt_uses_first_three (mrData : MRData) (changes : List FileChange)
    (commits : List Commit) (chunk : List FileChange) (chunkIndex totalChunks : Nat) :
    (prepareMRContext mrData changes commits).recentCommitMessages =
      (commits.take 5).map Commit.message ∧
    buildReviewPrompt (prepareMRContext mrData changes commits) chunk chunkIndex totalChunks =
      buildReviewPrompt (prepareMRContext mrData changes (commits.take 3))
        chunk chunkIndex totalChunks := by
  constructor
  · rfl
  · have hlist : ((commits.take 5).map Commit.message).take 3 =
        (((commits.take 3).take 5).map Commit.message).take 3 := by
      rw [← List.map_take, ← List.map_take, List.take_take, List.take_take, List.take_take]
      norm_num
    have hrender : renderRecentCommitMessages ((commits.take 5).map Commit.message) =
        renderRecentCommitMessages (((commits.take 3).take 5).map Commit.message) := by
      unfold renderRecentCommitMessages
      rw [hlist]
    simp only [buildReviewPrompt, prepareMRContext]
    rw [hrender]

/-! ## Posting review comments (`src/controllers/reviewController.js`,
`generateSummaryComment` in `src/services/openaiService.js`)

`postReviewComments` posts one summary note and then one note per issue
passing the `issue.line && issue.severity !== 'low'` guard.  The review
result it receives is either a single-chunk `ChunkReviewResult` or a
multi-chunk `CombinedReviewResult`; the accessors below model JavaScript
property access on that union (absent properties read as `undefined`).
Posting is modelled as returning the list of note bodies, in order. -/

/-- `reviewResult.summary` on either result shape. -/
def resultSummary : ChunkReviewResult ⊕ CombinedReviewResult → Option String
  | Sum.inl r => r.summary
  | Sum.inr c => some c.summary

/-- `reviewResult.fileReviews` on either result shape. -/
def resultFileReviews : ChunkReviewResult ⊕ CombinedReviewResult → Option (List FileReview)
  | Sum.inl r => r.fileReviews
  | Sum.inr c => some c.fileReviews

/-- `reviewResult.overallRecommendation` on either result shape. -/
def resultRecommendation : ChunkReviewResult ⊕ CombinedReviewResult → Option String
  | Sum.inl r => r.overallRecommendation
  | Sum.inr c => some c.overallRecommendation

/-- `reviewResult.keyInsights` on either result shape. -/
def resultKeyInsights : ChunkReviewResult ⊕ CombinedReviewResult → Option (List String)
  | Sum.inl r => r.keyInsights
  | Sum.inr c => some c.keyInsights

/-- `reviewResult.issueCounts` on either result shape; a single-chunk result
has no such property. -/
def resultIssueCounts : ChunkReviewResult ⊕ CombinedReviewResult → Option IssueCounts
  | Sum.inl _ => none
  | Sum.inr c => some c.issueCounts

/-- The `emoji` lookup object in `generateSummaryComment`; a missing key
renders as `undefined`. -/
def recommendationEmoji : Option String → String
  | some "approve" => "✅"
  | some "comment" => "💬"
  | some "request-changes" => "❌"
  | _ => "undefined"

/-- `generateSummaryComment(reviewResult, context)` from `openaiService.js`
(its `context` parameter is unused in the source body too). -/
def generateSummaryComment (reviewResult : ChunkReviewResult ⊕ CombinedReviewResult)
    (context : MRData) : String :=
  "## 🤖 AI Code Review Summary " ++
    recommendationEmoji (resultRecommendation reviewResult) ++ "\n\n" ++
  jsShow (resultSummary reviewResult) ++ "\n\n" ++
  (match resultIssueCounts reviewResult with
   | some issueCounts =>
     "### 📊 Issues Found:\n" ++
     "- 🔴 **High severity**: " ++ toString issueCounts.high ++ "\n" ++
     "- 🟡 **Medium severity**: " ++ toString issueCounts.medium ++ "\n" ++
     "- 🟢 **Low severity**: " ++ toString issueCounts.low ++ "\n\n"
   | none => "") ++
  (match resultKeyInsights reviewResult with
   | some keyInsights =>
     if keyInsights.length > 0 then
       "### 💡 Key Insights:\n" ++
         String.join (keyInsights.map fun insight => "- " ++ insight ++ "\n") ++ "\n"
     else ""
   | none => "") ++
  (if resultRecommendation reviewResult = some "approve" then
     "### ✅ Recommendation: Approve\nThe code changes look good to merge! 🚀\n\n"
   else if resultRecommendation reviewResult = some "request-changes" then
     "### ❌ Recommendation: Request Changes\nPlease address the high-severity issues before merging. 🔧\n\n"
   else
     "### 💬 Recommendation: Comment\nConsider addressing the identified issues to improve code quality. 📈\n\n") ++
  "---\n*🤖 This review was generated by AI. Please verify the suggestions and use your judgment.*"

/-- The `severityEmoji` lookup in `formatInlineComment` (the glyphs appear
exactly as stored in the source file); a missing key renders `undefined`. -/
def severityEmoji (severity : String) : String :=
  if severity = "high" then "ðŸ”´"
  else if severity = "medium" then "ðŸŸ¡"
  else if severity = "low" then "ðŸŸ¢"
  else "undefined"

/-- The `typeEmoji` lookup in `formatInlineComment`. -/
def typeEmoji (type : String) : Option String :=
  if type = "bug" then some "ðŸ›"
  else if type = "security" then some "ðŸ”’"
  else if type = "performance" then some "âš¡"
  else if type = "style" then some "ðŸŽ¨"
  else if type = "best-practice" then some "ðŸ’¡"
  else if type = "testing" then some "ðŸ§ª"
  else none

/-- JavaScript `String.prototype.replace` with a string pattern replaces
only the first occurrence (`issue.type.replace('-', ' ')`). -/
def jsReplaceFirstDash (s : String) : String :=
  match s.splitOn "-" with
  | [] => s
  | [part] => part
  | part :: parts => part ++ " " ++ String.intercalate "-" parts

/-- `formatInlineComment(issue, filename)` from `reviewController.js`
(its `filename` parameter is unused in the source body too). -/
def formatInlineComment (issue : Issue) (filename : String) : String :=
  severityEmoji issue.severity ++ " " ++ (typeEmoji issue.type).getD "ðŸ“" ++ " **" ++
    (jsReplaceFirstDash issue.type).toUpper ++ "**\n\n" ++
  issue.message ++ "\n\n" ++
  (match issue.suggestion with
   | some suggestion =>
     if suggestion = "" then "" else "ðŸ’¡ **Suggestion:**\n" ++ suggestion ++ "\n\n"
   | none => "") ++
  "*Severity: " ++ issue.severity ++ "*"

/-- JavaScript truthiness of `issue.line`: absent, `null` and `0` are all
falsy. -/
def jsTruthyLine : Option Nat → Bool
  | none => false
  | some n => n != 0

/-- `postReviewComments(...)` from `reviewController.js`, modelled as the
list of note bodies posted (every GitLab call assumed to succeed): first the
summary note, then one note per issue passing the
`issue.line && issue.severity !== 'low'` guard, in file/issue order. -/
def postReviewComments (reviewResult : ChunkReviewResult ⊕ CombinedReviewResult)
    (mrData : MRData) : List String :=
  generateSummaryComment reviewResult mrData ::
    ((resultFileReviews reviewResult).getD []).flatMap fun fileReview =>
      (fileReview.issues.getD []).filterMap fun issue =>
        if jsTruthyLine issue.line && !(issue.severity == "low") then
          some ("**" ++ fileReview.filename ++ ":" ++ jsShow (issue.line.map toString) ++
            "** - " ++ issue.type.toUpper ++ "\n\n" ++
            formatInlineComment issue fileReview.filename)
        else none

/-- The issues that actually get an individual note: guard exactly as in the
source (`issue.line` truthy and severity not `low`). -/
def postedInlineIssues (reviewResult : ChunkReviewResult ⊕ CombinedReviewResult) : List Issue :=
  ((resultFileReviews reviewResult).getD []).flatMap fun fileReview =>
    (fileReview.issues.getD []).filter fun issue =>
      jsTruthyLine issue.line && !(issue.severity == "low")

/-- Modelled from the spec's wording for comparison: the issues C8 claims
are posted individually, namely severity not `low` and the `line` field
present. -/
def issuesWithLineAndNotLow (reviewResult : ChunkReviewResult ⊕ CombinedReviewResult) :
    List Issue :=
  ((resultFileReviews reviewResult).getD []).flatMap fun fileReview =>
    (fileReview.issues.getD []).filter fun issue =>
      issue.line.isSome && !(issue.severity == "low")

theorem length_filterMap_if {α β : Type} (l : List α) (p : α → Bool) (f : α → β) :
    (l.filterMap fun a => if p a then some (f a) else none).length =
      (l.filter p).length := by
  induction l with
  | nil => rfl
  | cons a t ih =>
    by_cases h : p a <;> simp [List.filterMap_cons, List.filter_cons, h, ih]

theorem length_flatMap_filterMap (frs : List FileReview) (q : Issue → Bool)
    (note : FileReview → Issue → String) :
    (frs.flatMap fun fr =>
      (fr.issues.getD []).filterMap fun issue =>
        if q issue then some (note fr issue) else none).length =
    (frs.flatMap fun fr => (fr.issues.getD []).filter q).length := by
  induction frs with
  | nil => rfl
  | cons fr t ih => simp [List.flatMap_cons, length_filterMap_if, ih]

/-- A combined result with a single high-severity issue at line 0, the C8
counterexample input. -/
def c8Result : ChunkReviewResult ⊕ CombinedReviewResult :=
  Sum.inr
    { summary := "s"
      fileReviews :=
        [{ filename := "a.js",
           issues := some [{ line := some 0, type := "bug", severity := "high", message := "m" }] }]
      overallRecommendation := "request-changes"
      keyInsights := []
      issueCounts := { high := 1, medium := 0, low := 0 }
      totalTokensUsed := 0 }

/-- Merge-request data for the C8 counterexample. -/
def c8MR : MRData := {}

/-- C8 counterexample.  The result `c8Result` contains exactly one issue
whose severity is not `low` and whose `line` field is present (`line = 0`),
yet `postReviewComments` posts only the summary note: the JavaScript guard
`issue.line && ...` treats line 0 as absent, so the claimed
"one note per issue with a line and severity ≠ low" fails at this input. -/
theorem postReviewComments_line_zero_not_posted :
    (postReviewComments c8Result c8MR).length = 1 ∧
    (issuesWithLineAndNotLow c8Result).length = 1 ∧
    (postReviewComments c8Result c8MR).length ≠
      1 + (issuesWithLineAndNotLow c8Result).length := by
  refine ⟨rfl, rfl, by decide⟩

/-- C8 as amended.  `postReviewComments` posts the summary note first and
exactly one additional note per issue whose severity is not `low` and whose
`line` is present and nonzero (JavaScript truthiness of `issue.line`);
low-severity, line-less and line-0 issues are never posted individually. -/
theorem postReviewComments_count (reviewResult : ChunkReviewResult ⊕ CombinedReviewResult)
    (mrData : MRData) :
    (postReviewComments reviewResult mrData).head? =
      some (generateSummaryComment reviewResult mrData) ∧
    (postReviewComments reviewResult mrData).length =
      1 + (postedInlineIssues reviewResult).length := by
  constructor
  · rfl
  · simp only [postReviewComments, postedInlineIssues, List.length_cons,
      length_flatMap_filterMap]
    omega

/-! ## Job progress tracking (`src/controllers/reviewController.js`) -/

/-- The `result` object stored on a completed job: the review result spread
together with `commentsPosted`, `mrTitle` and `mrAuthor`. -/
structure JobResult where
  review : ChunkReviewResult ⊕ CombinedReviewResult
  commentsPosted : Nat
  mrTitle : String
  mrAuthor : Option String
deriving DecidableEq

/-- A review job as stored in the `reviewJobs` map, with the fields written
by `analyzeMergeRequest`, `updateJobProgress` and the completion/failure
paths.  Timestamps are modelled as natural numbers. -/
structure Job where
  id : String
  status : String
  progress : Nat
  currentStep : Option String := none
  startTime : Nat
  endTime : Option Nat := none
  lastUpdated : Option Nat := none
  mrUrl : String := ""
  projectPath : String := ""
  mrIid : Nat := 0
  baseUrl : Option String := none
  result : Option JobResult := none
  error : Option String := none
deriving DecidableEq

/-- `updateJobProgress(jobId, progress, message)` from
`reviewController.js`, with the `reviewJobs` map modelled as a partial
function and `new Date()` passed in as `now`: when the job exists, replace
it by a copy with `progress`, `currentStep` and `lastUpdated` updated;
otherwise do nothing. -/
def updateJobProgress (reviewJobs : String → Option Job) (jobId : String)
    (progress : Nat) (message : String) (now : Nat) : String → Option Job :=
  match reviewJobs jobId with
  | some job => fun key =>
      if key = jobId then
        some { job with progress := progress, currentStep := some message,
                        lastUpdated := some now }
      else reviewJobs key
  | none => reviewJobs

/-- C10.  For a job present in the map, `updateJobProgress` sets exactly
`progress`, `currentStep` and `lastUpdated` on that job and preserves its
`id`, `status`, `startTime`, `endTime`, `result`, `error` and remaining
fields; entries under other keys are untouched; and when the job id is
absent the map is returned entirely unchanged (no error is raised). -/
theorem updateJobProgress_frame (reviewJobs : String → Option Job) (jobId : String)
    (progress : Nat) (message : String) (now : Nat) :
    (∀ job, reviewJobs jobId = some job →
      ((updateJobProgress reviewJobs jobId progress message now jobId).map Job.progress =
          some progress ∧
        (updateJobProgress reviewJobs jobId progress message now jobId).map Job.currentStep =
          some (some message) ∧
        (updateJobProgress reviewJobs jobId progress message now jobId).map Job.lastUpdated =
          some (some now) ∧
        (updateJobProgress reviewJobs jobId progress message now jobId).map Job.id =
          some job.id ∧
        (updateJobProgress reviewJobs jobId progress message now jobId).map Job.status =
          some job.status ∧
        (updateJobProgress reviewJobs jobId progress message now jobId).map Job.startTime =
          some job.startTime ∧
        (updateJobProgress reviewJobs jobId progress message now jobId).map Job.endTime =
          some job.endTime ∧
        (updateJobProgress reviewJobs jobId progress message now jobId).map Job.result =
          some job.result ∧
        (updateJobProgress reviewJobs jobId progress message now jobId).map Job.error =
          some job.error ∧
        (updateJobProgress reviewJobs jobId progress message now jobId).map Job.mrUrl =
          some job.mrUrl ∧
        (updateJobProgress reviewJobs jobId progress message now jobId).map Job.projectPath =
          some job.projectPath ∧
        (updateJobProgress reviewJobs jobId progress message now jobId).map Job.mrIid =
          some job.mrIid ∧
        (updateJobProgress reviewJobs jobId progress message now jobId).map Job.baseUrl =
          some job.baseUrl) ∧
      (∀ key, key ≠ jobId →
        updateJobProgress reviewJobs jobId progress message now key = reviewJobs key)) ∧
    (reviewJobs jobId = none →
      updateJobProgress reviewJobs jobId progress message now = reviewJobs) := by
  constructor
  · intro job hjob
    constructor
    · unfold updateJobProgress
      rw [hjob]
      simp
    · intro key hkey
      unfold updateJobProgress
      rw [hjob]
      simp [hkey]
  · intro hnone
    unfold updateJobProgress
    rw [hnone]

/-- A concrete job and map for the C10 witness. -/
def c10Job : Job :=
  { id := "review_1", status := "processing", progress := 0, startTime := 100,
    mrUrl := "https://gitlab.example.com/g/p/-/merge_requests/1",
    projectPath := "g/p", mrIid := 1 }

/-- A one-entry job map for the C10 witness. -/
def c10Jobs : String → Option Job :=
  fun key => if key = "review_1" then some c10Job else none

/-- Witness for C10: applying `updateJobProgress` to the concrete one-entry
map updates the progress field of `review_1` while keeping its status. -/
theorem updateJobProgress_frame_witness :
    c10Jobs "review_1" = some c10Job ∧
    (updateJobProgress c10Jobs "review_1" 50 "Analyzing code with AI..." 200 "review_1").map
        Job.progress = some 50 ∧
    (updateJobProgress c10Jobs "review_1" 50 "Analyzing code with AI..." 200 "review_1").map
        Job.status = some c10Job.status :=
  ⟨by simp [c10Jobs],
    ((updateJobProgress_frame c10Jobs "review_1" 50 "Analyzing code with AI..." 200).1
      c10Job (by simp [c10Jobs])).1.1,
    (((updateJobProgress_frame c10Jobs "review_1" 50 "Analyzing code with AI..." 200).1
      c10Job (by simp [c10Jobs])).1.2.2.2.2).1⟩

end GitLabReviewAgent
